import Mathlib

/-! Parallelotope domain of APRON: manager creation, the wrap/unwrap boundary
and the lattice operations of the design text.

A shallow embedding of `parallelotopes/ptope.c` and of the declarations of
`parallelotopes/ptope_fun.h`.

* C pointers are natural numbers, `0` is `NULL`.
* Memory is split by object type (managers, internal scratch records,
  `ap_abstract0_t` containers, parallelotopes); a store into one region leaves
  the others alone.
* A failed `assert` aborts the process: the embedded function returns `none`.
* Results of calls into the C library and the environment (`malloc`,
  `ap_fpu_init`) are inputs of the embedded function.
* The lattice operations that `ptope_fun.h` declares are defined in other
  files of the domain; they are written here from the design text, on exact
  rational scalars, and every such definition says so.
-/

namespace Ptope

/-! ## Operation identifiers and function symbols -/

/-- Operation identifiers `AP_FUNID_*` that `ptope_manager_alloc` names, in the
order of the assignments of `ptope.c` lines 59-108.  The enumeration itself is
declared in `ap_manager.h`; its members are distinct constants. -/
inductive ap_funid_t where
  | AP_FUNID_COPY
  | AP_FUNID_FREE
  | AP_FUNID_ASIZE
  | AP_FUNID_MINIMIZE
  | AP_FUNID_CANONICALIZE
  | AP_FUNID_HASH
  | AP_FUNID_APPROXIMATE
  | AP_FUNID_FPRINT
  | AP_FUNID_FPRINTDIFF
  | AP_FUNID_FDUMP
  | AP_FUNID_SERIALIZE_RAW
  | AP_FUNID_DESERIALIZE_RAW
  | AP_FUNID_BOTTOM
  | AP_FUNID_TOP
  | AP_FUNID_OF_BOX
  | AP_FUNID_DIMENSION
  | AP_FUNID_IS_BOTTOM
  | AP_FUNID_IS_TOP
  | AP_FUNID_IS_LEQ
  | AP_FUNID_IS_EQ
  | AP_FUNID_IS_DIMENSION_UNCONSTRAINED
  | AP_FUNID_SAT_INTERVAL
  | AP_FUNID_SAT_LINCONS
  | AP_FUNID_SAT_TCONS
  | AP_FUNID_BOUND_DIMENSION
  | AP_FUNID_BOUND_LINEXPR
  | AP_FUNID_BOUND_TEXPR
  | AP_FUNID_TO_BOX
  | AP_FUNID_TO_LINCONS_ARRAY
  | AP_FUNID_TO_TCONS_ARRAY
  | AP_FUNID_TO_GENERATOR_ARRAY
  | AP_FUNID_MEET
  | AP_FUNID_MEET_ARRAY
  | AP_FUNID_MEET_LINCONS_ARRAY
  | AP_FUNID_MEET_TCONS_ARRAY
  | AP_FUNID_JOIN
  | AP_FUNID_JOIN_ARRAY
  | AP_FUNID_ADD_RAY_ARRAY
  | AP_FUNID_ASSIGN_LINEXPR_ARRAY
  | AP_FUNID_SUBSTITUTE_LINEXPR_ARRAY
  | AP_FUNID_ASSIGN_TEXPR_ARRAY
  | AP_FUNID_SUBSTITUTE_TEXPR_ARRAY
  | AP_FUNID_ADD_DIMENSIONS
  | AP_FUNID_REMOVE_DIMENSIONS
  | AP_FUNID_PERMUTE_DIMENSIONS
  | AP_FUNID_FORGET_ARRAY
  | AP_FUNID_EXPAND
  | AP_FUNID_FOLD
  | AP_FUNID_WIDENING
  | AP_FUNID_CLOSURE
  deriving DecidableEq, Repr

/-- Addresses of the functions that `ptope_fun.h` declares, one symbol per
declaration, in the order of the header.  Distinct C functions have distinct
addresses. -/
inductive funptr_t where
  -- I.1 Memory
  | ptope_copy
  | ptope_free
  | ptope_size
  | ptope_of_abstract0
  | abstract0_of_ptope
  -- I.2 Control of internal representation
  | ptope_minimize
  | ptope_canonicalize
  | ptope_hash
  | ptope_approximate
  | ptope_is_minimal
  | ptope_is_canonical
  -- I.3 Printing
  | ptope_fprint
  | ptope_fprintdiff
  | ptope_fdump
  -- I.4 Serialization
  | ptope_serialize_raw
  | ptope_deserialize_raw
  -- II.1 Basic constructors
  | ptope_bottom
  | ptope_top
  | ptope_of_box
  | ptope_of_lincons_array
  | ptope_of_tcons_array
  | ptope_of_generator_array
  -- II.2 Accessors
  | ptope_dimension
  -- II.3 Tests
  | ptope_is_bottom
  | ptope_is_top
  | ptope_is_leq
  | ptope_is_eq
  | ptope_sat_lincons
  | ptope_sat_tcons
  | ptope_sat_interval
  | ptope_is_dimension_unconstrained
  -- II.4 Extraction of properties
  | ptope_bound_linexpr
  | ptope_bound_texpr
  | ptope_bound_dimension
  | ptope_to_lincons_array
  | ptope_to_tcons_array
  | ptope_to_box
  | ptope_to_generator_array
  -- III.1 Meet and Join
  | ptope_meet
  | ptope_join
  | ptope_meet_array
  | ptope_join_array
  | ptope_meet_lincons_array
  | ptope_meet_tcons_array
  | ptope_add_ray_array
  -- III.2 Assignement and Substitutions
  | ptope_assign_linexpr_array
  | ptope_substitute_linexpr_array
  | ptope_assign_texpr_array
  | ptope_substitute_texpr_array
  -- III.3 Projections
  | ptope_forget_array
  -- III.4 Change and permutation of dimensions
  | ptope_add_dimensions
  | ptope_remove_dimensions
  | ptope_permute_dimensions
  -- III.5 Expansion and folding of dimensions
  | ptope_expand
  | ptope_fold
  -- III.6 Widening, Narrowing
  | ptope_widening
  | ptope_widening_thresholds
  | ptope_narrowing
  | ptope_add_epsilon
  | ptope_add_epsilon_bin
  -- III.7 Topological closure operation
  | ptope_closure
  deriving DecidableEq, Repr

/-- Destructors that can be stored in the `internal_free` field of a manager;
`ptope.c` defines and stores `ptope_internal_free`. -/
inductive internal_free_t where
  | ptope_internal_free
  deriving DecidableEq, Repr

/-! ## Records -/

/-- Life cycle of one `bound_t` cell of a C array: as `malloc` left it, after
`bound_init`, after `bound_clear`.  The numeric content of a bound is defined
in `bound.h`. -/
inductive bound_cell where
  | raw
  | initialised
  | cleared
  deriving DecidableEq, Repr

/-- Scratch record `ptope_internal_t` with the four fields `ptope.c` uses.
The arrays behind the pointers `tmp` and `tmp2` are kept as lists of their
cells; a `long` that was never written is `none`. -/
structure ptope_internal_t where
  tmp : List bound_cell
  tmp2 : List (Option Int)
  tmp_size : Nat
  man : Nat
  deriving DecidableEq, Repr

/-- One entry of the exception log of a manager: the exception kind and the
operation that raised it. -/
structure ap_exclog_t where
  exn : Nat
  funid : ap_funid_t
  deriving DecidableEq, Repr

/-- Manager record `ap_manager_t`, restricted to the fields that `ptope.c`
reads or writes directly or through the `ap_manager_*` calls it makes.
`funptr` is the dispatch table, `abort_if_exception` the array
`option.abort_if_exception` indexed by exception kind, `exclog` the log
`result.exclog`. -/
structure ap_manager_t where
  library : String
  version : String
  internal : Nat
  internal_free : internal_free_t
  count : Nat
  funptr : ap_funid_t → Option funptr_t
  abort_if_exception : Nat → Bool
  exclog : List ap_exclog_t

/-- Container `ap_abstract0_t`: the pointer to the abstract value and the
pointer to the manager that tags it. -/
structure ap_abstract0_t where
  value : Nat
  man : Nat
  deriving DecidableEq, Repr

/-- Memory of the process, one region per object type, and the text written
to `stderr` (one entry per `fprintf` call).  `ptope_t` is the content of a
parallelotope, defined in `ptope_internal.h`. -/
structure memory (ptope_t : Type) where
  stderr : List String
  managers : Nat → Option ap_manager_t
  internals : Nat → Option ptope_internal_t
  abstract0s : Nat → Option ap_abstract0_t
  ptopes : Nat → Option ptope_t

/-- What the environment hands to one run of `ptope_manager_alloc`: the result
of `ap_fpu_init`, the pointers returned by the three `malloc` calls, the
unspecified content of the freshly allocated scratch record, and the address
and unspecified content of the manager record that `ap_manager_alloc`
allocates. -/
structure alloc_env where
  fpu_init : Bool
  pr : Nat
  raw_pr : ptope_internal_t
  tmp : Nat
  tmp2 : Nat
  man : Nat
  raw_man : ap_manager_t

/-! ## Library calls made by `ptope.c` -/

/-- Modelled from the spec: `bound_init_array` of `bound.h`, which is
not one of the embedded files; it initialises the cells at the indices below
`size`, whatever the length of the array.  A cell written past the end of the
array shows as an added cell of the list, so a run past the buffer changes
the length. -/
def bound_init_array (a : List bound_cell) (size : Nat) : List bound_cell :=
  List.replicate size bound_cell.initialised ++ a.drop size

/-- Modelled from the spec: `bound_clear_array` of `bound.h`, which is
not one of the embedded files; it clears the cells at the indices below
`size`, whatever the length of the array.  A cell written past the end of the
array shows as an added cell of the list, so a run past the buffer changes
the length. -/
def bound_clear_array (a : List bound_cell) (size : Nat) : List bound_cell :=
  List.replicate size bound_cell.cleared ++ a.drop size

/-- Modelled from the spec: `ap_manager_alloc` of `ap_manager.c`, which is not
one of the embedded files; it fills a fresh manager record with the library name,
the version, the internal state and its destructor, and gives it one
reference.  The dispatch table and the remaining fields are what the
allocation left there (`raw`). -/
def ap_manager_alloc (raw : ap_manager_t) (library version : String) (internal : Nat)
    (internal_free : internal_free_t) : ap_manager_t :=
  { raw with
    library := library
    version := version
    internal := internal
    internal_free := internal_free
    count := 1 }

/-- Modelled from the spec: `ap_manager_set_abort_if_exception` of
`ap_manager.c`, which is not one of the
embedded files; it stores `flag` in the
abort-if-exception array at index `exn`. -/
def ap_manager_set_abort_if_exception (man : ap_manager_t) (exn : Nat) (flag : Bool) :
    ap_manager_t :=
  { man with abort_if_exception := Function.update man.abort_if_exception exn flag }

/-- Modelled from the spec: `ap_manager_copy` of `ap_manager.c`, which is not
one of the embedded files; it takes one more reference on the manager at `man` and
returns the same pointer.  A pointer to no manager aborts. -/
def ap_manager_copy {ptope_t : Type} (mem : memory ptope_t) (man : Nat) :
    Option (memory ptope_t × Nat) :=
  match mem.managers man with
  | none => none
  | some m =>
    some ({ mem with
            managers := Function.update mem.managers man (some { m with count := m.count + 1 }) },
          man)

/-- Modelled from the spec: `ap_manager_raise_exception` of `ap_manager.c`,
which is not one of the embedded files; when the abort flag of the kind `exn` is set
in the manager at `man` the process is terminated (`none`), otherwise the
exception is added to the log of that manager and the call returns. -/
def ap_manager_raise_exception {ptope_t : Type} (mem : memory ptope_t) (man : Nat)
    (exn : Nat) (funid : ap_funid_t) : Option (memory ptope_t) :=
  match mem.managers man with
  | none => none
  | some m =>
    if m.abort_if_exception exn then none
    else
      some { mem with
             managers :=
               Function.update mem.managers man
                 (some { m with exclog := { exn := exn, funid := funid } :: m.exclog }) }

/-- Modelled from the spec: the left-to-right pairwise reduction of the
handles `tab` into `acc` by the binary operation `op`, threading the memory. -/
def fold_pairwise {ptope_t : Type}
    (op : memory ptope_t → Nat → Nat → Nat → Option (memory ptope_t × Nat))
    (mem : memory ptope_t) (man : Nat) (acc : Nat) : List Nat → Option (memory ptope_t × Nat)
  | [] => some (mem, acc)
  | a :: tab =>
    match op mem man acc a with
    | none => none
    | some (mem1, acc1) => fold_pairwise op mem1 man acc1 tab

/-- Modelled from the spec: `ptope_meet_array`, declared in `ptope_fun.h` and
defined in another file of the domain.  The header says it raises an
`exc_invalid_argument` exception if `size==0`; the design text says that with
one element or more it folds pairwise, left to right.  The binary meet `meet`
and the number `AP_EXC_INVALID_ARGUMENT` of the exception kind are inputs.
The returned handle is `none` when the call raised the exception. -/
def ptope_meet_array {ptope_t : Type} (AP_EXC_INVALID_ARGUMENT : Nat)
    (meet : memory ptope_t → Nat → Nat → Nat → Option (memory ptope_t × Nat))
    (mem : memory ptope_t) (man : Nat) (tab : List Nat) :
    Option (memory ptope_t × Option Nat) :=
  match tab with
  | [] =>
    match ap_manager_raise_exception mem man AP_EXC_INVALID_ARGUMENT
        ap_funid_t.AP_FUNID_MEET_ARRAY with
    | none => none
    | some mem1 => some (mem1, none)
  | a :: rest =>
    match fold_pairwise meet mem man a rest with
    | none => none
    | some (mem1, r) => some (mem1, some r)

/-- Modelled from the spec: `ptope_join_array`, declared in `ptope_fun.h` and
defined in another file of the domain; the same shape as `ptope_meet_array`
with the binary join. -/
def ptope_join_array {ptope_t : Type} (AP_EXC_INVALID_ARGUMENT : Nat)
    (join : memory ptope_t → Nat → Nat → Nat → Option (memory ptope_t × Nat))
    (mem : memory ptope_t) (man : Nat) (tab : List Nat) :
    Option (memory ptope_t × Option Nat) :=
  match tab with
  | [] =>
    match ap_manager_raise_exception mem man AP_EXC_INVALID_ARGUMENT
        ap_funid_t.AP_FUNID_JOIN_ARRAY with
    | none => none
    | some mem1 => some (mem1, none)
  | a :: rest =>
    match fold_pairwise join mem man a rest with
    | none => none
    | some (mem1, r) => some (mem1, some r)

/-! ## `ptope.c` -/

/-- The statement `man->funptr[id] = &f`. -/
def set_funptr (man : ap_manager_t) (id : ap_funid_t) (f : funptr_t) : ap_manager_t :=
  { man with funptr := Function.update man.funptr id (some f) }

/-- The fifty assignments of `ptope.c` lines 59-108, in source order. -/
def funptr_assignments : List (ap_funid_t × funptr_t) :=
  [ (.AP_FUNID_COPY, .ptope_copy),
    (.AP_FUNID_FREE, .ptope_free),
    (.AP_FUNID_ASIZE, .ptope_size),
    (.AP_FUNID_MINIMIZE, .ptope_minimize),
    (.AP_FUNID_CANONICALIZE, .ptope_canonicalize),
    (.AP_FUNID_HASH, .ptope_hash),
    (.AP_FUNID_APPROXIMATE, .ptope_approximate),
    (.AP_FUNID_FPRINT, .ptope_fprint),
    (.AP_FUNID_FPRINTDIFF, .ptope_fprintdiff),
    (.AP_FUNID_FDUMP, .ptope_fdump),
    (.AP_FUNID_SERIALIZE_RAW, .ptope_serialize_raw),
    (.AP_FUNID_DESERIALIZE_RAW, .ptope_deserialize_raw),
    (.AP_FUNID_BOTTOM, .ptope_bottom),
    (.AP_FUNID_TOP, .ptope_top),
    (.AP_FUNID_OF_BOX, .ptope_of_box),
    (.AP_FUNID_DIMENSION, .ptope_dimension),
    (.AP_FUNID_IS_BOTTOM, .ptope_is_bottom),
    (.AP_FUNID_IS_TOP, .ptope_is_top),
    (.AP_FUNID_IS_LEQ, .ptope_is_leq),
    (.AP_FUNID_IS_EQ, .ptope_is_eq),
    (.AP_FUNID_IS_DIMENSION_UNCONSTRAINED, .ptope_is_dimension_unconstrained),
    (.AP_FUNID_SAT_INTERVAL, .ptope_sat_interval),
    (.AP_FUNID_SAT_LINCONS, .ptope_sat_lincons),
    (.AP_FUNID_SAT_TCONS, .ptope_sat_tcons),
    (.AP_FUNID_BOUND_DIMENSION, .ptope_bound_dimension),
    (.AP_FUNID_BOUND_LINEXPR, .ptope_bound_linexpr),
    (.AP_FUNID_BOUND_TEXPR, .ptope_bound_texpr),
    (.AP_FUNID_TO_BOX, .ptope_to_box),
    (.AP_FUNID_TO_LINCONS_ARRAY, .ptope_to_lincons_array),
    (.AP_FUNID_TO_TCONS_ARRAY, .ptope_to_tcons_array),
    (.AP_FUNID_TO_GENERATOR_ARRAY, .ptope_to_generator_array),
    (.AP_FUNID_MEET, .ptope_meet),
    (.AP_FUNID_MEET_ARRAY, .ptope_meet_array),
    (.AP_FUNID_MEET_LINCONS_ARRAY, .ptope_meet_lincons_array),
    (.AP_FUNID_MEET_TCONS_ARRAY, .ptope_meet_tcons_array),
    (.AP_FUNID_JOIN, .ptope_join),
    (.AP_FUNID_JOIN_ARRAY, .ptope_join_array),
    (.AP_FUNID_ADD_RAY_ARRAY, .ptope_add_ray_array),
    (.AP_FUNID_ASSIGN_LINEXPR_ARRAY, .ptope_assign_linexpr_array),
    (.AP_FUNID_SUBSTITUTE_LINEXPR_ARRAY, .ptope_substitute_linexpr_array),
    (.AP_FUNID_ASSIGN_TEXPR_ARRAY, .ptope_assign_texpr_array),
    (.AP_FUNID_SUBSTITUTE_TEXPR_ARRAY, .ptope_substitute_texpr_array),
    (.AP_FUNID_ADD_DIMENSIONS, .ptope_add_dimensions),
    (.AP_FUNID_REMOVE_DIMENSIONS, .ptope_remove_dimensions),
    (.AP_FUNID_PERMUTE_DIMENSIONS, .ptope_permute_dimensions),
    (.AP_FUNID_FORGET_ARRAY, .ptope_forget_array),
    (.AP_FUNID_EXPAND, .ptope_expand),
    (.AP_FUNID_FOLD, .ptope_fold),
    (.AP_FUNID_WIDENING, .ptope_widening),
    (.AP_FUNID_CLOSURE, .ptope_closure) ]

/-- The text of the one `fprintf(stderr, ...)` of `ptope_manager_alloc`. -/
def fpu_diagnostic : String :=
  "ptope_manager_alloc cannot change the FPU rounding mode\n"

/-- The function `ptope_manager_alloc` of `ptope.c`.  `NUM_NAME` and
`AP_EXC_SIZE` are constants of headers that are not among the sources.
The result is the memory after the call and the returned manager pointer,
or `none` when an `assert` fails. -/
def ptope_manager_alloc {ptope_t : Type} (NUM_NAME : String) (AP_EXC_SIZE : Nat)
    (env : alloc_env) (mem : memory ptope_t) : Option (memory ptope_t × Nat) :=
  -- if (!ap_fpu_init()) fprintf(stderr, ...)
  let mem1 : memory ptope_t :=
    if !env.fpu_init then { mem with stderr := mem.stderr ++ [fpu_diagnostic] } else mem
  -- pr = malloc(sizeof(ptope_internal_t)); assert(pr);
  if env.pr = 0 then none else
  -- pr->tmp_size = 10;
  let pr1 : ptope_internal_t := { env.raw_pr with tmp_size := 10 }
  -- pr->tmp = malloc(sizeof(bound_t)*pr->tmp_size); assert(pr->tmp);
  if env.tmp = 0 then none else
  let pr2 : ptope_internal_t := { pr1 with tmp := List.replicate pr1.tmp_size bound_cell.raw }
  -- bound_init_array(pr->tmp,pr->tmp_size);
  let pr3 : ptope_internal_t := { pr2 with tmp := bound_init_array pr2.tmp pr2.tmp_size }
  -- pr->tmp2 = malloc(sizeof(long)*pr->tmp_size); assert(pr->tmp2);
  if env.tmp2 = 0 then none else
  let pr4 : ptope_internal_t := { pr3 with tmp2 := List.replicate pr3.tmp_size none }
  -- man = ap_manager_alloc("ptope","1.0 with " NUM_NAME, pr, ptope_internal_free);
  let man0 : ap_manager_t :=
    ap_manager_alloc env.raw_man "ptope" ("1.0 with " ++ NUM_NAME) env.pr
      internal_free_t.ptope_internal_free
  -- pr->man = man;
  let pr5 : ptope_internal_t := { pr4 with man := env.man }
  -- man->funptr[AP_FUNID_...] = &ptope_...;
  let man1 : ap_manager_t := funptr_assignments.foldl (fun m p => set_funptr m p.1 p.2) man0
  -- for (i=0;i<AP_EXC_SIZE;i++) ap_manager_set_abort_if_exception(man,i,false);
  let man2 : ap_manager_t :=
    (List.range AP_EXC_SIZE).foldl (fun m i => ap_manager_set_abort_if_exception m i false) man1
  -- return man;
  some ({ mem1 with
          internals := Function.update mem1.internals env.pr (some pr5)
          managers := Function.update mem1.managers env.man (some man2) },
        env.man)

/-- The function `ptope_internal_free` of `ptope.c`: the bounds of `tmp` are
cleared, then the two arrays and the record are released.  A pointer to no
scratch record aborts. -/
def ptope_internal_free {ptope_t : Type} (mem : memory ptope_t) (pr : Nat) :
    Option (memory ptope_t × List bound_cell) :=
  match mem.internals pr with
  | none => none
  | some r =>
    -- bound_clear_array(pr->tmp,pr->tmp_size);
    let cleared := bound_clear_array r.tmp r.tmp_size
    -- free(pr->tmp); free(pr->tmp2); free(pr);
    some ({ mem with internals := Function.update mem.internals pr none }, cleared)

/-- The function `ptope_of_abstract0` of `ptope.c`: `return (ptope_t*)a->value;`.
`a` points to a container in memory; a pointer to no container is outside
the domain of the C function and yields `none`. -/
def ptope_of_abstract0 {ptope_t : Type} (mem : memory ptope_t) (a : Nat) : Option Nat :=
  match mem.abstract0s a with
  | none => none
  | some c => some c.value

/-- The function `abstract0_of_ptope` of `ptope.c`.  `r` is the pointer that
`malloc(sizeof(ap_abstract0_t))` returns.  The result is the memory after the
call and the returned container pointer, or `none` when the `assert` fails. -/
def abstract0_of_ptope {ptope_t : Type} (mem : memory ptope_t) (r : Nat) (man : Nat)
    (ptope : Nat) (raw : ap_abstract0_t) : Option (memory ptope_t × Nat) :=
  -- ap_abstract0_t* r = malloc(sizeof(ap_abstract0_t)); assert(r);
  if r = 0 then none else
  -- r->value = ptope;
  let c1 : ap_abstract0_t := { raw with value := ptope }
  -- r->man = ap_manager_copy(man);
  match ap_manager_copy mem man with
  | none => none
  | some (mem1, man1) =>
    let c2 : ap_abstract0_t := { c1 with man := man1 }
    -- return r;
    some ({ mem1 with abstract0s := Function.update mem1.abstract0s r (some c2) }, r)

/-! ## The mapping the interface description gives -/

/-- The `ptope_` function that carries the name of the operation `id`
(`COPY` is `ptope_copy`, `ASIZE` is `ptope_size`, ...), written from the names
alone. -/
def same_operation : ap_funid_t → funptr_t
  | .AP_FUNID_COPY => .ptope_copy
  | .AP_FUNID_FREE => .ptope_free
  | .AP_FUNID_ASIZE => .ptope_size
  | .AP_FUNID_MINIMIZE => .ptope_minimize
  | .AP_FUNID_CANONICALIZE => .ptope_canonicalize
  | .AP_FUNID_HASH => .ptope_hash
  | .AP_FUNID_APPROXIMATE => .ptope_approximate
  | .AP_FUNID_FPRINT => .ptope_fprint
  | .AP_FUNID_FPRINTDIFF => .ptope_fprintdiff
  | .AP_FUNID_FDUMP => .ptope_fdump
  | .AP_FUNID_SERIALIZE_RAW => .ptope_serialize_raw
  | .AP_FUNID_DESERIALIZE_RAW => .ptope_deserialize_raw
  | .AP_FUNID_BOTTOM => .ptope_bottom
  | .AP_FUNID_TOP => .ptope_top
  | .AP_FUNID_OF_BOX => .ptope_of_box
  | .AP_FUNID_DIMENSION => .ptope_dimension
  | .AP_FUNID_IS_BOTTOM => .ptope_is_bottom
  | .AP_FUNID_IS_TOP => .ptope_is_top
  | .AP_FUNID_IS_LEQ => .ptope_is_leq
  | .AP_FUNID_IS_EQ => .ptope_is_eq
  | .AP_FUNID_IS_DIMENSION_UNCONSTRAINED => .ptope_is_dimension_unconstrained
  | .AP_FUNID_SAT_INTERVAL => .ptope_sat_interval
  | .AP_FUNID_SAT_LINCONS => .ptope_sat_lincons
  | .AP_FUNID_SAT_TCONS => .ptope_sat_tcons
  | .AP_FUNID_BOUND_DIMENSION => .ptope_bound_dimension
  | .AP_FUNID_BOUND_LINEXPR => .ptope_bound_linexpr
  | .AP_FUNID_BOUND_TEXPR => .ptope_bound_texpr
  | .AP_FUNID_TO_BOX => .ptope_to_box
  | .AP_FUNID_TO_LINCONS_ARRAY => .ptope_to_lincons_array
  | .AP_FUNID_TO_TCONS_ARRAY => .ptope_to_tcons_array
  | .AP_FUNID_TO_GENERATOR_ARRAY => .ptope_to_generator_array
  | .AP_FUNID_MEET => .ptope_meet
  | .AP_FUNID_MEET_ARRAY => .ptope_meet_array
  | .AP_FUNID_MEET_LINCONS_ARRAY => .ptope_meet_lincons_array
  | .AP_FUNID_MEET_TCONS_ARRAY => .ptope_meet_tcons_array
  | .AP_FUNID_JOIN => .ptope_join
  | .AP_FUNID_JOIN_ARRAY => .ptope_join_array
  | .AP_FUNID_ADD_RAY_ARRAY => .ptope_add_ray_array
  | .AP_FUNID_ASSIGN_LINEXPR_ARRAY => .ptope_assign_linexpr_array
  | .AP_FUNID_SUBSTITUTE_LINEXPR_ARRAY => .ptope_substitute_linexpr_array
  | .AP_FUNID_ASSIGN_TEXPR_ARRAY => .ptope_assign_texpr_array
  | .AP_FUNID_SUBSTITUTE_TEXPR_ARRAY => .ptope_substitute_texpr_array
  | .AP_FUNID_ADD_DIMENSIONS => .ptope_add_dimensions
  | .AP_FUNID_REMOVE_DIMENSIONS => .ptope_remove_dimensions
  | .AP_FUNID_PERMUTE_DIMENSIONS => .ptope_permute_dimensions
  | .AP_FUNID_FORGET_ARRAY => .ptope_forget_array
  | .AP_FUNID_EXPAND => .ptope_expand
  | .AP_FUNID_FOLD => .ptope_fold
  | .AP_FUNID_WIDENING => .ptope_widening
  | .AP_FUNID_CLOSURE => .ptope_closure

/-- The declarations of `ptope_fun.h` that no assignment of
`ptope_manager_alloc` mentions. -/
def not_dispatched : List funptr_t :=
  [ .ptope_of_abstract0, .abstract0_of_ptope,
    .ptope_is_minimal, .ptope_is_canonical,
    .ptope_of_lincons_array, .ptope_of_tcons_array, .ptope_of_generator_array,
    .ptope_widening_thresholds, .ptope_narrowing,
    .ptope_add_epsilon, .ptope_add_epsilon_bin ]

/-- The manager record that `ptope_manager_alloc` stores at `env.man`, written
as the two loops over the record of `ap_manager_alloc`. -/
def allocated_manager (NUM_NAME : String) (AP_EXC_SIZE : Nat) (env : alloc_env) : ap_manager_t :=
  (List.range AP_EXC_SIZE).foldl (fun m i => ap_manager_set_abort_if_exception m i false)
    (funptr_assignments.foldl (fun m p => set_funptr m p.1 p.2)
      (ap_manager_alloc env.raw_man "ptope" ("1.0 with " ++ NUM_NAME) env.pr
        internal_free_t.ptope_internal_free))

/-- The scratch record that `ptope_manager_alloc` stores at `env.pr`. -/
def allocated_internal (env : alloc_env) : ptope_internal_t :=
  { tmp := bound_init_array (List.replicate 10 bound_cell.raw) 10
    tmp2 := List.replicate 10 none
    tmp_size := 10
    man := env.man }

/-- The memory that a returning call of `ptope_manager_alloc` leaves. -/
def allocated_memory {ptope_t : Type} (NUM_NAME : String) (AP_EXC_SIZE : Nat)
    (env : alloc_env) (mem : memory ptope_t) : memory ptope_t :=
  { stderr := if env.fpu_init then mem.stderr else mem.stderr ++ [fpu_diagnostic]
    managers := Function.update mem.managers env.man
      (some (allocated_manager NUM_NAME AP_EXC_SIZE env))
    internals := Function.update mem.internals env.pr (some (allocated_internal env))
    abstract0s := mem.abstract0s
    ptopes := mem.ptopes }

/-- A memory with nothing allocated and nothing written. -/
def empty_memory : memory Unit :=
  { stderr := []
    managers := fun _ => none
    internals := fun _ => none
    abstract0s := fun _ => none
    ptopes := fun _ => none }

/-- A manager record with every slot of the dispatch table empty and every
abort flag set, as `ap_option_init` would leave it. -/
def sample_raw_manager : ap_manager_t :=
  { library := ""
    version := ""
    internal := 0
    internal_free := internal_free_t.ptope_internal_free
    count := 0
    funptr := fun _ => none
    abort_if_exception := fun _ => true
    exclog := [] }

/-- An environment in which every allocation succeeds and `ap_fpu_init`
fails. -/
def sample_env : alloc_env :=
  { fpu_init := false
    pr := 16
    raw_pr := { tmp := [], tmp2 := [], tmp_size := 0, man := 0 }
    tmp := 32
    tmp2 := 48
    man := 64
    raw_man := sample_raw_manager }

/-- A memory with one manager at address 64 and one parallelotope at
address 128. -/
def sample_memory : memory Unit :=
  { stderr := []
    managers := fun a => if a = 64 then some sample_raw_manager else none
    internals := fun _ => none
    abstract0s := fun _ => none
    ptopes := fun a => if a = 128 then some () else none }

/-- A memory with two containers that hold the same value pointer 128 under
the different tags 64 and 72. -/
def two_tags_memory : memory Unit :=
  { stderr := []
    managers := fun _ => none
    internals := fun _ => none
    abstract0s := fun a =>
      if a = 8 then some { value := 128, man := 64 }
      else if a = 24 then some { value := 128, man := 72 }
      else none
    ptopes := fun a => if a = 128 then some () else none }

/-! ## The abstract values of the design text -/

/-- Modelled from the spec: an abstract value of the data model, one of
three variants.  `bottom` is the empty set and `top` the full space, both
carry only the dimension descriptor; `normal B l u` is a basis matrix with
one bound pair per row, a lower bound that is a rational or minus infinity
(`⊥`) and an upper bound that is a rational or plus infinity (`⊤`).  The C
type `ptope_t` is defined in `ptope_internal.h`, which is not one of the
embedded files.  Scalars are exact rationals; integer dimensions are treated
as the real ones, the design text gives them no rule of their own. -/
inductive abstract_value (intdim realdim : Nat) where
  | bottom
  | top
  | normal (B : Matrix (Fin (intdim + realdim)) (Fin (intdim + realdim)) ℚ)
      (l : Fin (intdim + realdim) → WithBot ℚ) (u : Fin (intdim + realdim) → WithTop ℚ)

/-- Modelled from the spec: a basis with its bound pairs, the content of a
Normal value. -/
abbrev bounded_rows (n : Nat) : Type :=
  Matrix (Fin n) (Fin n) ℚ × (Fin n → WithBot ℚ) × (Fin n → WithTop ℚ)

/-- Modelled from the spec: the comparison `l ≤ u` of a lower bound with an
upper bound; an infinite side makes it hold. -/
def low_le_up : WithBot ℚ → WithTop ℚ → Prop
  | (a : ℚ), (b : ℚ) => a ≤ b
  | _, _ => True

instance low_le_up_decidable (l : WithBot ℚ) (u : WithTop ℚ) : Decidable (low_le_up l u) := by
  cases l <;> cases u <;> unfold low_le_up <;> infer_instance

variable {intdim realdim : Nat}

/-- Modelled from the spec: the basis and bounds that the data model gives
each variant.  Bottom has none; Top has the identity basis and every bound
`(−∞,+∞)`. -/
def abstract_value.rows : abstract_value intdim realdim → Option (bounded_rows (intdim + realdim))
  | .bottom => none
  | .top => some (1, fun _ => ⊥, fun _ => ⊤)
  | .normal B l u => some (B, l, u)

/-- Modelled from the spec: `canonicalize` (section 4.2) scans the bound
pairs; if some `l_i > u_i` the value becomes Bottom, otherwise it is left as
it is. -/
def canonicalize : abstract_value intdim realdim → abstract_value intdim realdim
  | .bottom => .bottom
  | .top => .top
  | .normal B l u => if ∃ i, ¬ low_le_up (l i) (u i) then .bottom else .normal B l u

/-- Modelled from the spec: `ptope_bottom` creates the Bottom value of the
given dimensions. -/
def ptope_bottom (intdim realdim : Nat) : abstract_value intdim realdim := .bottom

/-- Modelled from the spec: `ptope_top` creates the Top value of the given
dimensions. -/
def ptope_top (intdim realdim : Nat) : abstract_value intdim realdim := .top

/-! ### Bound of a direction (section 4.8) -/

/-- Modelled from the spec: lower end of the product of the rational `c`
with the interval `[l,u]` (section 4.1).  A zero coefficient with an interval
that has an infinite side is the product of zero and infinity: it resolves
to the widest result, minus infinity; with two finite sides it gives zero. -/
def mul_lower (c : ℚ) (l : WithBot ℚ) (u : WithTop ℚ) : WithBot ℚ :=
  if c = 0 then (if l = ⊥ ∨ u = ⊤ then ⊥ else 0)
  else if 0 < c then
    match l with
    | ⊥ => ⊥
    | (a : ℚ) => ((c * a : ℚ) : WithBot ℚ)
  else
    match u with
    | ⊤ => ⊥
    | (b : ℚ) => ((c * b : ℚ) : WithBot ℚ)

/-- Modelled from the spec: upper end of the product of the rational `c`
with the interval `[l,u]` (section 4.1).  A zero coefficient with an interval
that has an infinite side resolves to the widest result, plus infinity; with
two finite sides it gives zero. -/
def mul_upper (c : ℚ) (l : WithBot ℚ) (u : WithTop ℚ) : WithTop ℚ :=
  if c = 0 then (if l = ⊥ ∨ u = ⊤ then ⊤ else 0)
  else if 0 < c then
    match u with
    | ⊤ => ⊤
    | (b : ℚ) => ((c * b : ℚ) : WithTop ℚ)
  else
    match l with
    | ⊥ => ⊤
    | (a : ℚ) => ((c * a : ℚ) : WithTop ℚ)

/-- Modelled from the spec: the linear solve against `B` that expresses the
direction `e` in the basis, the `c` with `c ᵥ* B = e`, computed by Cramer's
rule. -/
def coordinates {n : Nat} (B : Matrix (Fin n) (Fin n) ℚ) (e : Fin n → ℚ) : Fin n → ℚ :=
  (B.det)⁻¹ • Matrix.vecMul e B.adjugate

/-- Modelled from the spec: the interval of the direction `e` over a basis
with bounds, the combination of the row bounds with the coordinates of `e`
as coefficients. -/
def row_bound {n : Nat} (R : bounded_rows n) (e : Fin n → ℚ) : WithBot ℚ × WithTop ℚ :=
  (∑ j, mul_lower (coordinates R.1 e j) (R.2.1 j) (R.2.2 j),
   ∑ j, mul_upper (coordinates R.1 e j) (R.2.1 j) (R.2.2 j))

/-- Modelled from the spec: `ptope_bound_linexpr` on a linear form (section
4.8).  Over Bottom no value is taken: the result is `none`, the empty
interval. -/
def ptope_bound_linexpr (a : abstract_value intdim realdim)
    (e : Fin (intdim + realdim) → ℚ) : Option (WithBot ℚ × WithTop ℚ) :=
  match a.rows with
  | none => none
  | some R => some (row_bound R e)

/-- Modelled from the spec: the interval `b` lies inside `[l,u]`; the empty
interval lies inside every interval. -/
def interval_within (b : Option (WithBot ℚ × WithTop ℚ)) (l : WithBot ℚ) (u : WithTop ℚ) : Prop :=
  match b with
  | none => True
  | some (lo, hi) => l ≤ lo ∧ hi ≤ u

instance interval_within_decidable (b : Option (WithBot ℚ × WithTop ℚ)) (l : WithBot ℚ)
    (u : WithTop ℚ) : Decidable (interval_within b l u) := by
  cases b <;> unfold interval_within <;> infer_instance

/-! ### Tests -/

/-- Modelled from the spec: `ptope_is_leq`, the inclusion check.  Bottom is
included in every value; no other value is included in Bottom; otherwise
`a1` is included in `a2` when, on every row of `a2`, the interval that the
bound computation of section 4.8 gives the row direction over `a1` lies
inside the bound pair of the row.  The answer is true only when the computed
bounds prove the inclusion. -/
def ptope_is_leq (a1 a2 : abstract_value intdim realdim) : Bool :=
  match a1.rows, a2.rows with
  | none, _ => true
  | some _, none => false
  | some _, some (B2, l2, u2) =>
    decide (∀ i, interval_within (ptope_bound_linexpr a1 (B2 i)) (l2 i) (u2 i))

/-- Modelled from the spec: `ptope_is_eq`, the equality check, inclusion in
both directions. -/
def ptope_is_eq (a1 a2 : abstract_value intdim realdim) : Bool :=
  ptope_is_leq a1 a2 && ptope_is_leq a2 a1

/-! ### Widening (section 4.5) -/

/-- Modelled from the spec: the lower bound of the interval `b` is strictly
below `l`; the empty interval has no bound below another. -/
def lower_unstable (b : Option (WithBot ℚ × WithTop ℚ)) (l : WithBot ℚ) : Bool :=
  match b with
  | none => false
  | some (lo, _) => decide (lo < l)

/-- Modelled from the spec: the upper bound of the interval `b` is strictly
above `u`; the empty interval has no bound above another. -/
def upper_unstable (b : Option (WithBot ℚ × WithTop ℚ)) (u : WithTop ℚ) : Bool :=
  match b with
  | none => false
  | some (_, hi) => decide (u < hi)

/-- Modelled from the spec: `ptope_widening`.  Per basis row of `a1`, the
bound of `a2` for that row is computed; a lower bound of `a2` strictly below
that of `a1` sets the lower bound of the result to minus infinity, an upper
bound strictly above sets it to plus infinity, otherwise the bound of `a1`
is kept.  A Bottom `a1` has no row: the result is then `a2`. -/
def ptope_widening (a1 a2 : abstract_value intdim realdim) : abstract_value intdim realdim :=
  match a1.rows with
  | none => a2
  | some (B, l, u) =>
    .normal B
      (fun i => if lower_unstable (ptope_bound_linexpr a2 (B i)) (l i) then ⊥ else l i)
      (fun i => if upper_unstable (ptope_bound_linexpr a2 (B i)) (u i) then ⊤ else u i)

/-! ### Meet (section 4.4) -/

/-- Modelled from the spec: a linear constraint `coeff · x ≤ cst`, the form
in which section 4.3 writes a bound of a row. -/
structure lincons (n : Nat) where
  coeff : Fin n → ℚ
  cst : ℚ

/-- Modelled from the spec: the bound pairs read as linear constraints
(section 4.3): per row, `(B·x)_i ≤ u_i` when `u_i` is finite and
`−(B·x)_i ≤ −l_i` when `l_i` is finite; an infinite side is omitted. -/
def row_constraints {n : Nat} (R : bounded_rows n) : List (lincons n) :=
  (List.finRange n).flatMap fun i =>
    (match R.2.2 i with
      | ⊤ => []
      | (b : ℚ) => [{ coeff := R.1 i, cst := b }]) ++
    (match R.2.1 i with
      | ⊥ => []
      | (a : ℚ) => [{ coeff := -(R.1 i), cst := -a }])

/-- Modelled from the spec: one linear constraint intersected into the
representation of `a`.  The direction is expressed in the basis of `a`; when
it is a multiple `k` of one row, the bound of that row is tightened (the
upper bound when `k` is positive, the lower bound when it is negative);
otherwise the result is what the strategy `fallback` gives, which the
design text leaves open. -/
def intersect_constraint
    (fallback : abstract_value intdim realdim → lincons (intdim + realdim) →
      abstract_value intdim realdim)
    (a : abstract_value intdim realdim) (c : lincons (intdim + realdim)) :
    abstract_value intdim realdim :=
  match a.rows with
  | none => .bottom
  | some (B, l, u) =>
    let k := coordinates B c.coeff
    match (List.finRange (intdim + realdim)).find?
        (fun j => decide (k j ≠ 0 ∧ k = Pi.single j (k j))) with
    | none => fallback a c
    | some j =>
      if 0 < k j then
        .normal B l (Function.update u j (min (u j) ((c.cst / k j : ℚ) : WithTop ℚ)))
      else
        .normal B (Function.update l j (max (l j) ((c.cst / k j : ℚ) : WithBot ℚ))) u

/-- Modelled from the spec: `ptope_meet`.  Bottom on either side gives
Bottom.  With identical bases the result is the row-wise intersection of the
bound pairs, canonicalized.  With different bases every bound pair of `a2`,
read as linear constraints, is intersected into `a1` one at a time. -/
def ptope_meet
    (fallback : abstract_value intdim realdim → lincons (intdim + realdim) →
      abstract_value intdim realdim)
    (a1 a2 : abstract_value intdim realdim) : abstract_value intdim realdim :=
  match a1.rows, a2.rows with
  | none, _ => .bottom
  | some _, none => .bottom
  | some (B1, l1, u1), some (B2, l2, u2) =>
    if B1 = B2 then
      canonicalize (.normal B1 (fun i => max (l1 i) (l2 i)) (fun i => min (u1 i) (u2 i)))
    else
      canonicalize ((row_constraints (B2, l2, u2)).foldl (intersect_constraint fallback) a1)

/-! ### Sample values -/

theorem foldl_abort_funptr (l : List Nat) (m : ap_manager_t) :
    (l.foldl (fun m i => ap_manager_set_abort_if_exception m i false) m).funptr = m.funptr := by
  induction l generalizing m with
  | nil => rfl
  | cons i l ih => simp only [List.foldl_cons]; rw [ih]; rfl

theorem foldl_abort_flag (l : List Nat) (m : ap_manager_t) (i : Nat) :
    (l.foldl (fun m i => ap_manager_set_abort_if_exception m i false) m).abort_if_exception i
      = if i ∈ l then false else m.abort_if_exception i := by
  induction l generalizing m with
  | nil => simp
  | cons j l ih =>
    simp only [List.foldl_cons, List.mem_cons]
    rw [ih]
    by_cases hl : i ∈ l
    · simp [hl]
    · by_cases hj : i = j
      · subst hj
        simp [hl, ap_manager_set_abort_if_exception]
      · simp [hl, hj, ap_manager_set_abort_if_exception, Function.update]

theorem foldl_funptr_flag (l : List (ap_funid_t × funptr_t)) (m : ap_manager_t) :
    (l.foldl (fun m p => set_funptr m p.1 p.2) m).abort_if_exception = m.abort_if_exception := by
  induction l generalizing m with
  | nil => rfl
  | cons p l ih => simp only [List.foldl_cons]; rw [ih]; rfl

theorem foldl_abort_fields (l : List Nat) (m : ap_manager_t) :
    (l.foldl (fun m i => ap_manager_set_abort_if_exception m i false) m).library = m.library ∧
    (l.foldl (fun m i => ap_manager_set_abort_if_exception m i false) m).version = m.version ∧
    (l.foldl (fun m i => ap_manager_set_abort_if_exception m i false) m).internal = m.internal ∧
    (l.foldl (fun m i => ap_manager_set_abort_if_exception m i false) m).exclog = m.exclog := by
  induction l generalizing m with
  | nil => exact ⟨rfl, rfl, rfl, rfl⟩
  | cons i l ih => simp only [List.foldl_cons]; exact ih _

theorem foldl_funptr_fields (l : List (ap_funid_t × funptr_t)) (m : ap_manager_t) :
    (l.foldl (fun m p => set_funptr m p.1 p.2) m).library = m.library ∧
    (l.foldl (fun m p => set_funptr m p.1 p.2) m).version = m.version ∧
    (l.foldl (fun m p => set_funptr m p.1 p.2) m).internal = m.internal ∧
    (l.foldl (fun m p => set_funptr m p.1 p.2) m).exclog = m.exclog := by
  induction l generalizing m with
  | nil => exact ⟨rfl, rfl, rfl, rfl⟩
  | cons p l ih => simp only [List.foldl_cons]; exact ih _

theorem allocated_manager_fields (NUM_NAME : String) (AP_EXC_SIZE : Nat) (env : alloc_env) :
    (allocated_manager NUM_NAME AP_EXC_SIZE env).library = "ptope" ∧
    (allocated_manager NUM_NAME AP_EXC_SIZE env).version = "1.0 with " ++ NUM_NAME ∧
    (allocated_manager NUM_NAME AP_EXC_SIZE env).internal = env.pr ∧
    (allocated_manager NUM_NAME AP_EXC_SIZE env).exclog = env.raw_man.exclog := by
  unfold allocated_manager
  obtain ⟨h1, h2, h3, h4⟩ := foldl_abort_fields (List.range AP_EXC_SIZE)
    (funptr_assignments.foldl (fun m p => set_funptr m p.1 p.2)
      (ap_manager_alloc env.raw_man "ptope" ("1.0 with " ++ NUM_NAME) env.pr
        internal_free_t.ptope_internal_free))
  obtain ⟨g1, g2, g3, g4⟩ := foldl_funptr_fields funptr_assignments
    (ap_manager_alloc env.raw_man "ptope" ("1.0 with " ++ NUM_NAME) env.pr
        internal_free_t.ptope_internal_free)
  rw [h1, h2, h3, h4, g1, g2, g3, g4]
  exact ⟨rfl, rfl, rfl, rfl⟩

theorem allocated_manager_flag (NUM_NAME : String) (AP_EXC_SIZE : Nat) (env : alloc_env)
    (i : Nat) (hi : i < AP_EXC_SIZE) :
    (allocated_manager NUM_NAME AP_EXC_SIZE env).abort_if_exception i = false := by
  unfold allocated_manager
  rw [foldl_abort_flag]
  simp [hi]

theorem allocated_manager_funptr (NUM_NAME : String) (AP_EXC_SIZE : Nat) (env : alloc_env)
    (id : ap_funid_t) :
    (allocated_manager NUM_NAME AP_EXC_SIZE env).funptr id = some (same_operation id) := by
  unfold allocated_manager
  rw [foldl_abort_funptr]
  cases id <;> rfl

theorem ptope_manager_alloc_eq {ptope_t : Type} (NUM_NAME : String) (AP_EXC_SIZE : Nat)
    (env : alloc_env) (mem : memory ptope_t)
    (hpr : env.pr ≠ 0) (htmp : env.tmp ≠ 0) (htmp2 : env.tmp2 ≠ 0) :
    ptope_manager_alloc NUM_NAME AP_EXC_SIZE env mem
      = some (allocated_memory NUM_NAME AP_EXC_SIZE env mem, env.man) := by
  simp only [ptope_manager_alloc, hpr, htmp, htmp2, if_false]
  cases h : env.fpu_init <;> simp [allocated_memory, allocated_manager, allocated_internal, h]

theorem allocated_memory_managers {ptope_t : Type} (NUM_NAME : String) (AP_EXC_SIZE : Nat)
    (env : alloc_env) (mem : memory ptope_t) :
    (allocated_memory NUM_NAME AP_EXC_SIZE env mem).managers env.man
      = some (allocated_manager NUM_NAME AP_EXC_SIZE env) := by
  simp [allocated_memory]

theorem ap_manager_raise_exception_returns {ptope_t : Type} (mem : memory ptope_t)
    (man exn : Nat) (funid : ap_funid_t) (m : ap_manager_t)
    (hman : mem.managers man = some m) (hflag : m.abort_if_exception exn = false) :
    ap_manager_raise_exception mem man exn funid
      = some { mem with
               managers :=
                 Function.update mem.managers man
                   (some { m with exclog := { exn := exn, funid := funid } :: m.exclog }) } := by
  simp [ap_manager_raise_exception, hman, hflag]

/-! ## Lemmas on the bound of a direction and on the inclusion check -/

/-- C1: when the three allocations succeed, `ptope_manager_alloc` returns the
manager, and the dispatch table of that manager holds, at every identifier
from `AP_FUNID_COPY` to `AP_FUNID_CLOSURE`, the `ptope_` function of the same
operation.  The source makes fifty assignments, each one is still in place at
the end (no slot is left empty), no identifier is assigned twice, and two
different identifiers never hold the same function. -/
theorem ptope_manager_alloc_dispatch_table {ptope_t : Type} (NUM_NAME : String)
    (AP_EXC_SIZE : Nat) (env : alloc_env) (mem : memory ptope_t)
    (hpr : env.pr ≠ 0) (htmp : env.tmp ≠ 0) (htmp2 : env.tmp2 ≠ 0) :
    ∃ (mem1 : memory ptope_t) (m : ap_manager_t),
      ptope_manager_alloc NUM_NAME AP_EXC_SIZE env mem = some (mem1, env.man) ∧
      mem1.managers env.man = some m ∧
      (∀ id, m.funptr id = some (same_operation id)) ∧
      funptr_assignments.length = 50 ∧
      (∀ p ∈ funptr_assignments, m.funptr p.1 = some p.2) ∧
      (∀ id, id ∈ funptr_assignments.map Prod.fst) ∧
      (funptr_assignments.map Prod.fst).Nodup ∧
      (∀ id1 id2, m.funptr id1 = m.funptr id2 → id1 = id2) := by
  have h1 := ptope_manager_alloc_eq NUM_NAME AP_EXC_SIZE env mem hpr htmp htmp2
  have h2 := allocated_memory_managers NUM_NAME AP_EXC_SIZE env mem
  have hf := allocated_manager_funptr NUM_NAME AP_EXC_SIZE env
  refine ⟨_, _, h1, h2, hf, rfl, ?_, ?_, by decide, ?_⟩
  · intro p hp
    rw [hf]
    revert p
    decide
  · intro id
    cases id <;> decide
  · intro id1 id2 h
    rw [hf, hf] at h
    have h3 : same_operation id1 = same_operation id2 := Option.some.inj h
    revert h3
    cases id1 <;> cases id2 <;> first | (intro _; rfl) | (intro h4; cases h4)

/-- Witness of C1 on an environment whose allocations succeed. -/
theorem ptope_manager_alloc_dispatch_table_witness :
    sample_env.pr ≠ 0 ∧ sample_env.tmp ≠ 0 ∧ sample_env.tmp2 ≠ 0 ∧
    ∃ (mem1 : memory Unit) (m : ap_manager_t),
      ptope_manager_alloc "MPQ" 6 sample_env empty_memory = some (mem1, sample_env.man) ∧
      mem1.managers sample_env.man = some m ∧
      (∀ id, m.funptr id = some (same_operation id)) ∧
      funptr_assignments.length = 50 ∧
      (∀ p ∈ funptr_assignments, m.funptr p.1 = some p.2) ∧
      (∀ id, id ∈ funptr_assignments.map Prod.fst) ∧
      (funptr_assignments.map Prod.fst).Nodup ∧
      (∀ id1 id2, m.funptr id1 = m.funptr id2 → id1 = id2) :=
  ⟨by decide, by decide, by decide,
   ptope_manager_alloc_dispatch_table "MPQ" 6 sample_env empty_memory
     (by decide) (by decide) (by decide)⟩

/-- C2: `ptope_manager_alloc` never fails because of the rounding mode.
Whether the call returns is the same for both outcomes of `ap_fpu_init`; when
the three allocations succeed both runs return the manager pointer, and the
memories they leave hold the same manager record (name `ptope`, version
`1.0 with NUM_NAME`, internal state at `pr`, the same dispatch table) and the
same scratch record.  The run in which `ap_fpu_init` succeeds writes nothing
to `stderr`; the run in which it fails writes one entry, the diagnostic,
which is a single line. -/
theorem ptope_manager_alloc_rounding_mode {ptope_t : Type} (NUM_NAME : String)
    (AP_EXC_SIZE : Nat) (env : alloc_env) (mem : memory ptope_t) :
    (ptope_manager_alloc NUM_NAME AP_EXC_SIZE { env with fpu_init := false } mem).isSome
      = (ptope_manager_alloc NUM_NAME AP_EXC_SIZE { env with fpu_init := true } mem).isSome ∧
    (env.pr ≠ 0 → env.tmp ≠ 0 → env.tmp2 ≠ 0 →
      ∃ (mem_ok mem_ko : memory ptope_t) (m : ap_manager_t) (pr : ptope_internal_t),
        ptope_manager_alloc NUM_NAME AP_EXC_SIZE { env with fpu_init := true } mem
          = some (mem_ok, env.man) ∧
        ptope_manager_alloc NUM_NAME AP_EXC_SIZE { env with fpu_init := false } mem
          = some (mem_ko, env.man) ∧
        mem_ko.managers = mem_ok.managers ∧
        mem_ko.internals = mem_ok.internals ∧
        mem_ko.abstract0s = mem_ok.abstract0s ∧
        mem_ko.ptopes = mem_ok.ptopes ∧
        mem_ok.managers env.man = some m ∧
        m.library = "ptope" ∧ m.version = "1.0 with " ++ NUM_NAME ∧ m.internal = env.pr ∧
        (∀ id, m.funptr id = some (same_operation id)) ∧
        mem_ok.internals env.pr = some pr ∧
        mem_ok.stderr = mem.stderr ∧
        mem_ko.stderr = mem.stderr ++ [fpu_diagnostic] ∧
        fpu_diagnostic.toList.count (Char.ofNat 10) = 1 ∧
        fpu_diagnostic.toList.getLast? = some (Char.ofNat 10)) := by
  constructor
  · by_cases hpr : env.pr = 0
    · simp [ptope_manager_alloc, hpr]
    · by_cases htmp : env.tmp = 0
      · simp [ptope_manager_alloc, htmp]
      · by_cases htmp2 : env.tmp2 = 0
        · simp [ptope_manager_alloc, htmp2]
        · simp [ptope_manager_alloc, hpr, htmp, htmp2]
  · intro hpr htmp htmp2
    have hf := allocated_manager_funptr NUM_NAME AP_EXC_SIZE env
    obtain ⟨g1, g2, g3, _⟩ := allocated_manager_fields NUM_NAME AP_EXC_SIZE env
    have hok := ptope_manager_alloc_eq NUM_NAME AP_EXC_SIZE { env with fpu_init := true } mem
      hpr htmp htmp2
    have hko := ptope_manager_alloc_eq NUM_NAME AP_EXC_SIZE { env with fpu_init := false } mem
      hpr htmp htmp2
    refine ⟨_, _, allocated_manager NUM_NAME AP_EXC_SIZE env, allocated_internal env,
      hok, hko, rfl, rfl, rfl, rfl, ?_, g1, g2, g3, hf, ?_, ?_, ?_, by decide, by decide⟩
    · exact allocated_memory_managers NUM_NAME AP_EXC_SIZE { env with fpu_init := true } mem
    · simp [allocated_memory]
      rfl
    · simp [allocated_memory]
    · simp [allocated_memory]

/-- Witness of C2 on an environment whose allocations succeed. -/
theorem ptope_manager_alloc_rounding_mode_witness :
    sample_env.pr ≠ 0 ∧ sample_env.tmp ≠ 0 ∧ sample_env.tmp2 ≠ 0 ∧
    ∃ (mem_ok mem_ko : memory Unit) (m : ap_manager_t) (pr : ptope_internal_t),
      ptope_manager_alloc "MPQ" 6 { sample_env with fpu_init := true } empty_memory
        = some (mem_ok, sample_env.man) ∧
      ptope_manager_alloc "MPQ" 6 { sample_env with fpu_init := false } empty_memory
        = some (mem_ko, sample_env.man) ∧
      mem_ko.managers = mem_ok.managers ∧
      mem_ko.internals = mem_ok.internals ∧
      mem_ko.abstract0s = mem_ok.abstract0s ∧
      mem_ko.ptopes = mem_ok.ptopes ∧
      mem_ok.managers sample_env.man = some m ∧
      m.library = "ptope" ∧ m.version = "1.0 with " ++ "MPQ" ∧ m.internal = sample_env.pr ∧
      (∀ id, m.funptr id = some (same_operation id)) ∧
      mem_ok.internals sample_env.pr = some pr ∧
      mem_ok.stderr = empty_memory.stderr ∧
      mem_ko.stderr = empty_memory.stderr ++ [fpu_diagnostic] ∧
      fpu_diagnostic.toList.count (Char.ofNat 10) = 1 ∧
      fpu_diagnostic.toList.getLast? = some (Char.ofNat 10) :=
  ⟨by decide, by decide, by decide,
   (ptope_manager_alloc_rounding_mode "MPQ" 6 sample_env empty_memory).2
     (by decide) (by decide) (by decide)⟩

/-! ## Wrapping -/

/-- C3: for every manager `man` in memory and every parallelotope pointer
`p`, when the allocation of the container succeeds `abstract0_of_ptope`
returns a container on which `ptope_of_abstract0` returns the pointer `p`
itself, and the round trip leaves the parallelotope region of the memory as
it was: no parallelotope is created, copied or modified. -/
theorem ptope_of_abstract0_of_ptope {ptope_t : Type} (mem : memory ptope_t)
    (r man p : Nat) (raw : ap_abstract0_t) (m : ap_manager_t)
    (hr : r ≠ 0) (hman : mem.managers man = some m) :
    ∃ mem1 : memory ptope_t,
      abstract0_of_ptope mem r man p raw = some (mem1, r) ∧
      ptope_of_abstract0 mem1 r = some p ∧
      mem1.ptopes = mem.ptopes := by
  simp [abstract0_of_ptope, ap_manager_copy, ptope_of_abstract0, hr, hman]

/-- Witness of C3 on a memory with a manager at 64 and a parallelotope at
128. -/
theorem ptope_of_abstract0_of_ptope_witness :
    (8 : Nat) ≠ 0 ∧ sample_memory.managers 64 = some sample_raw_manager ∧
    ∃ mem1 : memory Unit,
      abstract0_of_ptope sample_memory 8 64 128 { value := 0, man := 0 } = some (mem1, 8) ∧
      ptope_of_abstract0 mem1 8 = some 128 ∧
      mem1.ptopes = sample_memory.ptopes :=
  ⟨by decide, rfl,
   ptope_of_abstract0_of_ptope sample_memory 8 64 128 { value := 0, man := 0 }
     sample_raw_manager (by decide) rfl⟩

/-- C4: for every manager `man` in memory and every parallelotope pointer
`p`, the container that `abstract0_of_ptope` returns has in its `man` field
the pointer that `ap_manager_copy(man)` returns, which is `man` itself, the
manager at `man` has one more reference than before and is otherwise
unchanged, and the `value` field of the container is `p`. -/
theorem abstract0_of_ptope_tag {ptope_t : Type} (mem : memory ptope_t)
    (r man p : Nat) (raw : ap_abstract0_t) (m : ap_manager_t)
    (hr : r ≠ 0) (hman : mem.managers man = some m) :
    ∃ (mem1 memc : memory ptope_t) (manc : Nat) (c : ap_abstract0_t),
      abstract0_of_ptope mem r man p raw = some (mem1, r) ∧
      mem1.abstract0s r = some c ∧
      ap_manager_copy mem man = some (memc, manc) ∧
      c.man = manc ∧
      manc = man ∧
      mem1.managers man = some { m with count := m.count + 1 } ∧
      c.value = p := by
  simp [abstract0_of_ptope, ap_manager_copy, hr, hman]

/-- Witness of C4 on a memory with a manager at 64. -/
theorem abstract0_of_ptope_tag_witness :
    (8 : Nat) ≠ 0 ∧ sample_memory.managers 64 = some sample_raw_manager ∧
    ∃ (mem1 memc : memory Unit) (manc : Nat) (c : ap_abstract0_t),
      abstract0_of_ptope sample_memory 8 64 128 { value := 0, man := 0 } = some (mem1, 8) ∧
      mem1.abstract0s 8 = some c ∧
      ap_manager_copy sample_memory 64 = some (memc, manc) ∧
      c.man = manc ∧
      manc = 64 ∧
      mem1.managers 64 = some { sample_raw_manager with count := sample_raw_manager.count + 1 } ∧
      c.value = 128 :=
  ⟨by decide, rfl,
   abstract0_of_ptope_tag sample_memory 8 64 128 { value := 0, man := 0 }
     sample_raw_manager (by decide) rfl⟩

/-! ## Reach of the dispatch table -/

/-- C5 fails as stated: on an environment whose allocations succeed, the
manager that `ptope_manager_alloc` returns has no identifier whose slot holds
`ptope_of_lincons_array`, a constructor that `ptope_fun.h` declares. -/
theorem dispatch_table_misses_of_lincons_array :
    ∃ (mem1 : memory Unit) (m : ap_manager_t),
      ptope_manager_alloc "MPQ" 6 sample_env empty_memory = some (mem1, 64) ∧
      mem1.managers 64 = some m ∧
      ¬ ∃ id, m.funptr id = some funptr_t.ptope_of_lincons_array := by
  have h1 :=
    ptope_manager_alloc_eq "MPQ" 6 sample_env (empty_memory) (by decide) (by decide) (by decide)
  have h2 := allocated_memory_managers "MPQ" 6 sample_env empty_memory
  refine ⟨_, _, h1, h2, ?_⟩
  rintro ⟨id, hid⟩
  rw [allocated_manager_funptr] at hid
  have h3 : same_operation id = funptr_t.ptope_of_lincons_array := Option.some.inj hid
  revert h3
  cases id <;> decide

/-- C5 as amended: when the three allocations succeed, a function declared in
`ptope_fun.h` is held by some slot of the dispatch table built by
`ptope_manager_alloc` exactly when it is not one of the eleven declarations
`ptope_of_abstract0`, `abstract0_of_ptope`, `ptope_is_minimal`,
`ptope_is_canonical`, `ptope_of_lincons_array`, `ptope_of_tcons_array`,
`ptope_of_generator_array`, `ptope_widening_thresholds`, `ptope_narrowing`,
`ptope_add_epsilon`, `ptope_add_epsilon_bin`. -/
theorem ptope_manager_alloc_reachable {ptope_t : Type} (NUM_NAME : String)
    (AP_EXC_SIZE : Nat) (env : alloc_env) (mem : memory ptope_t)
    (hpr : env.pr ≠ 0) (htmp : env.tmp ≠ 0) (htmp2 : env.tmp2 ≠ 0) :
    ∃ (mem1 : memory ptope_t) (m : ap_manager_t),
      ptope_manager_alloc NUM_NAME AP_EXC_SIZE env mem = some (mem1, env.man) ∧
      mem1.managers env.man = some m ∧
      ∀ f : funptr_t, (∃ id, m.funptr id = some f) ↔ f ∉ not_dispatched := by
  have h1 := ptope_manager_alloc_eq NUM_NAME AP_EXC_SIZE env mem hpr htmp htmp2
  have h2 := allocated_memory_managers NUM_NAME AP_EXC_SIZE env mem
  have hf := allocated_manager_funptr NUM_NAME AP_EXC_SIZE env
  refine ⟨_, _, h1, h2, ?_⟩
  intro f
  constructor
  · rintro ⟨id, hid⟩
    rw [hf] at hid
    have h3 : same_operation id = f := Option.some.inj hid
    subst h3
    cases id <;> decide
  · intro hnot
    have h4 : f ∈ funptr_assignments.map Prod.snd := by
      revert hnot
      cases f <;> decide
    obtain ⟨p, hp, h5⟩ := List.mem_map.1 h4
    subst h5
    refine ⟨p.1, ?_⟩
    rw [hf]
    revert p
    decide

/-- Witness of the amended C5 on an environment whose allocations succeed. -/
theorem ptope_manager_alloc_reachable_witness :
    sample_env.pr ≠ 0 ∧ sample_env.tmp ≠ 0 ∧ sample_env.tmp2 ≠ 0 ∧
    ∃ (mem1 : memory Unit) (m : ap_manager_t),
      ptope_manager_alloc "MPQ" 6 sample_env empty_memory = some (mem1, sample_env.man) ∧
      mem1.managers sample_env.man = some m ∧
      ∀ f : funptr_t, (∃ id, m.funptr id = some f) ↔ f ∉ not_dispatched :=
  ⟨by decide, by decide, by decide,
   ptope_manager_alloc_reachable "MPQ" 6 sample_env empty_memory
     (by decide) (by decide) (by decide)⟩

/-! ## Array reductions on an empty array -/

/-- C6: `ptope_meet_array` and `ptope_join_array` called with `size == 0`
raise the invalid-argument exception under every manager and produce no
value.  Under the manager built by `ptope_manager_alloc` (the three
allocations succeed, and invalid-argument is one of the `AP_EXC_SIZE`
exception kinds) the call is not terminated: it returns, and the exception
is at the head of the log of the manager, recorded for the operation that
was called. -/
theorem ptope_meet_join_array_empty {ptope_t : Type} (NUM_NAME : String)
    (AP_EXC_SIZE AP_EXC_INVALID_ARGUMENT : Nat) (env : alloc_env) (mem : memory ptope_t)
    (meet join : memory ptope_t → Nat → Nat → Nat → Option (memory ptope_t × Nat))
    (hpr : env.pr ≠ 0) (htmp : env.tmp ≠ 0) (htmp2 : env.tmp2 ≠ 0)
    (hexn : AP_EXC_INVALID_ARGUMENT < AP_EXC_SIZE) :
    (∀ (mem0 : memory ptope_t) (man : Nat),
      ptope_meet_array AP_EXC_INVALID_ARGUMENT meet mem0 man []
        = (ap_manager_raise_exception mem0 man AP_EXC_INVALID_ARGUMENT
            ap_funid_t.AP_FUNID_MEET_ARRAY).map (fun x => (x, none)) ∧
      ptope_join_array AP_EXC_INVALID_ARGUMENT join mem0 man []
        = (ap_manager_raise_exception mem0 man AP_EXC_INVALID_ARGUMENT
            ap_funid_t.AP_FUNID_JOIN_ARRAY).map (fun x => (x, none))) ∧
    ∃ (mem1 mem2 mem3 : memory ptope_t) (m2 m3 : ap_manager_t),
      ptope_manager_alloc NUM_NAME AP_EXC_SIZE env mem = some (mem1, env.man) ∧
      ptope_meet_array AP_EXC_INVALID_ARGUMENT meet mem1 env.man [] = some (mem2, none) ∧
      mem2.managers env.man = some m2 ∧
      m2.exclog = { exn := AP_EXC_INVALID_ARGUMENT, funid := ap_funid_t.AP_FUNID_MEET_ARRAY }
        :: env.raw_man.exclog ∧
      ptope_join_array AP_EXC_INVALID_ARGUMENT join mem1 env.man [] = some (mem3, none) ∧
      mem3.managers env.man = some m3 ∧
      m3.exclog = { exn := AP_EXC_INVALID_ARGUMENT, funid := ap_funid_t.AP_FUNID_JOIN_ARRAY }
        :: env.raw_man.exclog := by
  constructor
  · intro mem0 man
    constructor
    · simp only [ptope_meet_array]
      cases ap_manager_raise_exception mem0 man AP_EXC_INVALID_ARGUMENT
        ap_funid_t.AP_FUNID_MEET_ARRAY <;> rfl
    · simp only [ptope_join_array]
      cases ap_manager_raise_exception mem0 man AP_EXC_INVALID_ARGUMENT
        ap_funid_t.AP_FUNID_JOIN_ARRAY <;> rfl
  · have h1 := ptope_manager_alloc_eq NUM_NAME AP_EXC_SIZE env mem hpr htmp htmp2
    have h2 := allocated_memory_managers NUM_NAME AP_EXC_SIZE env mem
    have h3 := allocated_manager_flag NUM_NAME AP_EXC_SIZE env AP_EXC_INVALID_ARGUMENT hexn
    obtain ⟨_, _, _, h4⟩ := allocated_manager_fields NUM_NAME AP_EXC_SIZE env
    have hm := ap_manager_raise_exception_returns (allocated_memory NUM_NAME AP_EXC_SIZE env mem)
      env.man AP_EXC_INVALID_ARGUMENT ap_funid_t.AP_FUNID_MEET_ARRAY _ h2 h3
    have hj := ap_manager_raise_exception_returns (allocated_memory NUM_NAME AP_EXC_SIZE env mem)
      env.man AP_EXC_INVALID_ARGUMENT ap_funid_t.AP_FUNID_JOIN_ARRAY _ h2 h3
    refine ⟨_,
      { allocated_memory NUM_NAME AP_EXC_SIZE env mem with
        managers := Function.update (allocated_memory NUM_NAME AP_EXC_SIZE env mem).managers
          env.man (some { allocated_manager NUM_NAME AP_EXC_SIZE env with
            exclog := { exn := AP_EXC_INVALID_ARGUMENT, funid := ap_funid_t.AP_FUNID_MEET_ARRAY }
              :: (allocated_manager NUM_NAME AP_EXC_SIZE env).exclog }) },
      { allocated_memory NUM_NAME AP_EXC_SIZE env mem with
        managers := Function.update (allocated_memory NUM_NAME AP_EXC_SIZE env mem).managers
          env.man (some { allocated_manager NUM_NAME AP_EXC_SIZE env with
            exclog := { exn := AP_EXC_INVALID_ARGUMENT, funid := ap_funid_t.AP_FUNID_JOIN_ARRAY }
              :: (allocated_manager NUM_NAME AP_EXC_SIZE env).exclog }) },
      _, _, h1, ?_, Function.update_same _ _ _, ?_, ?_, Function.update_same _ _ _, ?_⟩
    · simp only [ptope_meet_array, hm]
    · simp only [h4]
    · simp only [ptope_join_array, hj]
    · simp only [h4]

/-- Witness of C6 with exception kind 4 of 6 and a binary operation that
returns its left operand. -/
theorem ptope_meet_join_array_empty_witness :
    sample_env.pr ≠ 0 ∧ sample_env.tmp ≠ 0 ∧ sample_env.tmp2 ≠ 0 ∧ 4 < 6 ∧
    ∃ (mem1 mem2 mem3 : memory Unit) (m2 m3 : ap_manager_t),
      ptope_manager_alloc "MPQ" 6 sample_env empty_memory = some (mem1, sample_env.man) ∧
      ptope_meet_array 4 (fun mem _ a _ => some (mem, a)) mem1 sample_env.man []
        = some (mem2, none) ∧
      mem2.managers sample_env.man = some m2 ∧
      m2.exclog = { exn := 4, funid := ap_funid_t.AP_FUNID_MEET_ARRAY }
        :: sample_env.raw_man.exclog ∧
      ptope_join_array 4 (fun mem _ a _ => some (mem, a)) mem1 sample_env.man []
        = some (mem3, none) ∧
      mem3.managers sample_env.man = some m3 ∧
      m3.exclog = { exn := 4, funid := ap_funid_t.AP_FUNID_JOIN_ARRAY }
        :: sample_env.raw_man.exclog :=
  ⟨by decide, by decide, by decide, by decide,
   (ptope_meet_join_array_empty "MPQ" 6 4 sample_env empty_memory
     (fun mem _ a _ => some (mem, a)) (fun mem _ a _ => some (mem, a))
     (by decide) (by decide) (by decide) (by decide)).2⟩

/-! ## Widening and meet on the abstract values of the design text -/

/-- C9: `ptope_of_abstract0` performs no tag check.  For any two containers
in memory that hold the same `value` field it returns that same
parallelotope pointer, whatever their `man` tags are; the call always
returns a pointer and never an error; and replacing the tag of a container
by any manager pointer `t`, the owner or another one, does not change what
unwrapping returns. -/
theorem ptope_of_abstract0_ignores_tag {ptope_t : Type} (mem : memory ptope_t)
    (a b : Nat) (ca cb : ap_abstract0_t)
    (ha : mem.abstract0s a = some ca) (hb : mem.abstract0s b = some cb)
    (hv : ca.value = cb.value) :
    ptope_of_abstract0 mem a = some ca.value ∧
    ptope_of_abstract0 mem b = some ca.value ∧
    ∀ t : Nat,
      ptope_of_abstract0
        { mem with abstract0s := Function.update mem.abstract0s a (some { ca with man := t }) } a
        = ptope_of_abstract0 mem a := by
  simp [ptope_of_abstract0, ha, hb, hv]

/-- Witness of C9 on two containers with the same value and different tags. -/
theorem ptope_of_abstract0_ignores_tag_witness :
    two_tags_memory.abstract0s 8 = some { value := 128, man := 64 } ∧
    two_tags_memory.abstract0s 24 = some { value := 128, man := 72 } ∧
    (64 : Nat) ≠ 72 ∧
    ptope_of_abstract0 two_tags_memory 8 = some 128 ∧
    ptope_of_abstract0 two_tags_memory 24 = some 128 ∧
    ∀ t : Nat,
      ptope_of_abstract0
        { two_tags_memory with
          abstract0s := Function.update two_tags_memory.abstract0s 8
            (some { ({ value := 128, man := 64 } : ap_abstract0_t) with man := t }) } 8
        = ptope_of_abstract0 two_tags_memory 8 :=
  ⟨rfl, rfl, by decide,
   ptope_of_abstract0_ignores_tag two_tags_memory 8 24 { value := 128, man := 64 }
     { value := 128, man := 72 } rfl rfl rfl⟩

/-- C10: when the three allocations succeed, the manager returned by
`ptope_manager_alloc` has the abort-if-exception flag false for every
exception kind `i` with `0 <= i < AP_EXC_SIZE`, whatever the flags were in the
record that `ap_manager_alloc` delivered. -/
theorem ptope_manager_alloc_abort_flags {ptope_t : Type} (NUM_NAME : String)
    (AP_EXC_SIZE : Nat) (env : alloc_env) (mem : memory ptope_t)
    (hpr : env.pr ≠ 0) (htmp : env.tmp ≠ 0) (htmp2 : env.tmp2 ≠ 0) :
    ∃ (mem1 : memory ptope_t) (m : ap_manager_t),
      ptope_manager_alloc NUM_NAME AP_EXC_SIZE env mem = some (mem1, env.man) ∧
      mem1.managers env.man = some m ∧
      ∀ i, i < AP_EXC_SIZE → m.abort_if_exception i = false := by
  exact ⟨_, _, ptope_manager_alloc_eq NUM_NAME AP_EXC_SIZE env mem hpr htmp htmp2,
    allocated_memory_managers NUM_NAME AP_EXC_SIZE env mem,
    allocated_manager_flag NUM_NAME AP_EXC_SIZE env⟩

/-- Witness of C10: the sample record has every abort flag set before the
call. -/
theorem ptope_manager_alloc_abort_flags_witness :
    sample_env.pr ≠ 0 ∧ sample_env.tmp ≠ 0 ∧ sample_env.tmp2 ≠ 0 ∧
    (∀ i, sample_env.raw_man.abort_if_exception i = true) ∧
    ∃ (mem1 : memory Unit) (m : ap_manager_t),
      ptope_manager_alloc "MPQ" 6 sample_env empty_memory = some (mem1, sample_env.man) ∧
      mem1.managers sample_env.man = some m ∧
      ∀ i, i < 6 → m.abort_if_exception i = false :=
  ⟨by decide, by decide, by decide, fun _ => rfl,
   ptope_manager_alloc_abort_flags "MPQ" 6 sample_env empty_memory
     (by decide) (by decide) (by decide)⟩

/-! ## The scratch state -/

end Ptope
